import Mathlib

/-!
Verification of the login service (`server.js` / `db.js`): a shallow embedding
of the register / login / profile handlers and of the `users` table, together
with theorems checking the specified properties against the embedded code.
-/

namespace LoginSys

/-- JS `String.prototype.toLowerCase`, restricted to the Basic Latin range that
`Char.toLower` handles (the service only lowercases usernames and emails). -/
def lower (s : String) : String := ⟨s.data.map Char.toLower⟩

/-- JS falsiness of a possibly-absent string value (`!x` is true exactly for a
missing field or the empty string, for string-typed request bodies). -/
def isFalsy : Option String → Bool
  | none => true
  | some s => s == ""

/-- JS falsiness of a possibly-absent numeric id (`!x` is true for a missing
value and for `0`). Used by the profile handler's session check. -/
def isFalsyId : Option Nat → Bool
  | none => true
  | some n => n == 0

/-- One row of the `users` table (see `initializeDatabase` in `server.js`). -/
structure Account where
  id : Nat
  username : String
  email : String
  password : String
  createdAt : Nat
  lastLogin : Option Nat
  isActive : Bool
deriving DecidableEq, Repr

/-- The `users` table: its rows plus the `SERIAL` id counter. -/
structure Db where
  rows : List Account
  nextId : Nat
deriving DecidableEq, Repr

/-- The character class `[^\s@]` of the email regex in the register handler
(whitespace restricted to the ASCII whitespace `Char.isWhitespace` knows;
JS `\s` additionally covers `\v`, `\f` and Unicode spaces). -/
def emailChar (c : Char) : Bool := !(c == '@') && !c.isWhitespace

/-- Whether a character list contains a `'.'` that is neither its first nor its
last element: the `[^\s@]+\.[^\s@]+` part of the email regex applied to the
piece after the `'@'`. -/
def hasInnerDot (l : List Char) : Bool := ((l.drop 1).dropLast).contains '.'

/-- The email test `/^[^\s@]+@[^\s@]+\.[^\s@]+$/.test(email)` of the register
handler: exactly one `'@'`, a non-empty all-`emailChar` local part before it,
and after it an all-`emailChar` piece with an inner dot. -/
def emailShape (s : String) : Bool :=
  match s.data.splitOn '@' with
  | [a, b] => !a.isEmpty && a.all emailChar && b.all emailChar && hasInnerDot b
  | _ => false

/-- The validation prefix of the register handler (`server.js` lines 133-161):
presence of the three fields, then username length, then email shape, then
password length; the result is the first `400` error produced, if any. -/
def validateRegister (username email password : Option String) :
    Option (Nat × String) :=
  if isFalsy username || isFalsy email || isFalsy password then
    some (400, "All fields are required")
  else
    let u := username.getD ""
    let e := email.getD ""
    let p := password.getD ""
    if u.length < 3 || u.length > 50 then
      some (400, "Username must be between 3 and 50 characters")
    else if !emailShape e then
      some (400, "Please provide a valid email address")
    else if p.length < 6 then
      some (400, "Password must be at least 6 characters long")
    else
      none

/-- The existing-user query of the register handler:
`SELECT ... FROM users WHERE username = $1 OR email = $2` with the lowercased
username and email as parameters (first matching row, as `rows[0]`). -/
def findConflict (db : Db) (lu le : String) : Option Account :=
  db.rows.find? (fun a => a.username == lu || a.email == le)

/-- The row a successful insert creates: fresh serial id, the given identity
fields and hash, `created_at = NOW()`, null `last_login`, active. -/
def newAccount (db : Db) (u e pw : String) (now : Nat) : Account :=
  { id := db.nextId, username := u, email := e, password := pw,
    createdAt := now, lastLogin := none, isActive := true }

/-- The table after a successful insert: the new row appended, the serial
counter advanced. -/
def insertedDb (db : Db) (u e pw : String) (now : Nat) : Db :=
  { rows := db.rows ++ [newAccount db u e pw now], nextId := db.nextId + 1 }

/-- The store-level insert:
`INSERT INTO users (username, email, password, created_at) VALUES ... RETURNING ...`.
The `users` table declares `username` and `email` `UNIQUE`, so the insert
itself atomically rejects a duplicate of either column (PostgreSQL error
`23505`), returning `none` here. -/
def dbInsert (db : Db) (u e pw : String) (now : Nat) :
    Option (Account × Db) :=
  if db.rows.any (fun a => a.username == u || a.email == e) then
    none
  else
    some (newAccount db u e pw now, insertedDb db u e pw now)

/-- The bcrypt dependency of the handlers, kept abstract: `hash` is
`bcrypt.hash` and `verify` is `bcrypt.compare plaintext storedHash`. -/
structure Hasher where
  hash : String → String
  verify : String → String → Bool

/-- A hasher is sound when verifying a password against its own hash
succeeds (`bcrypt.compare(p, bcrypt.hash(p))` is true). -/
def Hasher.Sound (H : Hasher) : Prop := ∀ p, H.verify p (H.hash p) = true

/-- Response of the register handler: an error status with its message, or the
`201` payload (`id`, `username`, `email`, `created_at` of the new row). -/
inductive RegResp where
  | err (status : Nat) (msg : String)
  | created (id : Nat) (username email : String) (createdAt : Nat)
deriving DecidableEq, Repr

/-- The conflicting-field computation of the register handler:
`existing.username.toLowerCase() === username.toLowerCase() ? 'username' : 'email'`. -/
def conflictField (existing : Account) (username : String) : String :=
  if lower existing.username == lower username then "username" else "email"

/-- The register handler (`POST /api/register`, `server.js` lines 125-224):
validation, the existing-user query, the insert (whose unique-constraint
rejection is the `23505` catch branch), session establishment and the
response. Returns the response, the updated table and the session user id. -/
def register (H : Hasher) (db : Db) (now : Nat)
    (username email password : Option String) (sess : Option Nat) :
    RegResp × Db × Option Nat :=
  match validateRegister username email password with
  | some (st, msg) => (.err st msg, db, sess)
  | none =>
    let u := username.getD ""
    let e := email.getD ""
    let p := password.getD ""
    match findConflict db (lower u) (lower e) with
    | some existing =>
        (.err 400 ("This " ++ conflictField existing u ++ " is already registered"),
         db, sess)
    | none =>
        match dbInsert db (lower u) (lower e) (H.hash p) now with
        | none => (.err 400 "Username or email already exists", db, sess)
        | some (acc, db2) =>
            (.created acc.id acc.username acc.email acc.createdAt, db2, some acc.id)

/-- The login handler's user query:
`SELECT ... FROM users WHERE LOWER(username) = LOWER($1) AND is_active = true`
(first matching row, as `rows[0]`). -/
def findActiveByUsername (db : Db) (username : String) : Option Account :=
  db.rows.find? (fun a => lower a.username == lower username && a.isActive)

/-- The login handler's timestamp update:
`UPDATE users SET last_login = NOW() WHERE id = $1`. -/
def updateLastLogin (db : Db) (uid : Nat) (now : Nat) : Db :=
  { db with
    rows := db.rows.map (fun a =>
      if a.id == uid then { a with lastLogin := some now } else a) }

/-- Response of the login handler: an error status with its message, or the
`200` payload (`id`, `username`, `email`, `lastLogin` of the matched row). -/
inductive LoginResp where
  | err (status : Nat) (msg : String)
  | ok (id : Nat) (username email : String) (lastLogin : Option Nat)
deriving DecidableEq, Repr

/-- Whether a login response is the success payload. -/
def LoginResp.isOk : LoginResp → Bool
  | .ok _ _ _ _ => true
  | .err _ _ => false

/-- The login handler (`POST /api/login`, `server.js` lines 227-298).
`updateFails` states whether the `UPDATE users SET last_login ...` statement
throws; since that statement runs inside the handler's single `try` block, its
failure reaches the `catch` and produces the generic `500` response. The last
component logs the database statements executed, in order. -/
def login (H : Hasher) (db : Db) (now : Nat) (updateFails : Bool)
    (username password : Option String) (sess : Option Nat) :
    LoginResp × Db × Option Nat × List String :=
  if isFalsy username || isFalsy password then
    (.err 400 "Username and password are required", db, sess, [])
  else
    match findActiveByUsername db (username.getD "") with
    | none =>
        (.err 401 "Invalid username or password", db, sess, ["selectUser"])
    | some user =>
        if !H.verify (password.getD "") user.password then
          (.err 401 "Invalid username or password", db, sess, ["selectUser"])
        else if updateFails then
          (.err 500 "Login failed due to server error", db, sess,
           ["selectUser", "updateLastLogin"])
        else
          (.ok user.id user.username user.email user.lastLogin,
           updateLastLogin db user.id now, some user.id,
           ["selectUser", "updateLastLogin"])

/-- Response of the profile handler: an error status with its message, or the
`200` payload. `session_duration` is omitted: it is derived from wall-clock
time and session metadata, not from account state. `totalUsers` is the joined
`(SELECT COUNT(*) FROM users)` value. -/
inductive ProfileResp where
  | err (status : Nat) (msg : String)
  | ok (id : Nat) (username email : String) (createdAt : Nat)
      (lastLogin : Option Nat) (totalUsers : Nat)
deriving DecidableEq, Repr

/-- The profile handler (`GET /api/profile`, `server.js` lines 323-372):
session check, then
`SELECT ..., (SELECT COUNT(*) FROM users) as total_users FROM users WHERE id = $1 AND is_active = true`. -/
def getProfile (db : Db) (sess : Option Nat) : ProfileResp :=
  if isFalsyId sess then .err 401 "Authentication required"
  else
    match db.rows.find? (fun a => a.id == sess.getD 0 && a.isActive) with
    | none => .err 404 "User account not found"
    | some user =>
        .ok user.id user.username user.email user.createdAt user.lastLogin
          db.rows.length

/-- All stored usernames and emails are lowercase (the normalization invariant
the register handler maintains by lowercasing before storage). -/
def DbNormalized (db : Db) : Prop :=
  ∀ a ∈ db.rows, lower a.username = a.username ∧ lower a.email = a.email

/-- Control point of one in-flight registration between its database
statements: before the existing-user query, between that query and the insert,
or finished with a response. -/
inductive RegPhase where
  | start
  | checkedOk
  | done (resp : RegResp)
deriving DecidableEq, Repr

/-- One in-flight registration request past validation: its raw inputs, the
hash already computed for its password, its `NOW()` value, and its control
point. Inputs never change across steps. -/
structure RegProc where
  u : String
  e : String
  hpw : String
  now : Nat
  phase : RegPhase
deriving DecidableEq, Repr

/-- One database step of an in-flight registration, mirroring the register
handler: the existing-user query (answering in the same step when it finds a
conflict, as the handler responds without further database work), then the
insert, whose unique-constraint rejection is the `23505` catch branch. A
finished request does not step. -/
def stepProc (db : Db) (p : RegProc) : Db × RegProc :=
  match p.phase with
  | .start =>
      match findConflict db (lower p.u) (lower p.e) with
      | some existing =>
          let msg := "This " ++ conflictField existing p.u ++ " is already registered"
          (db, { p with phase := .done (.err 400 msg) })
      | none => (db, { p with phase := .checkedOk })
  | .checkedOk =>
      match dbInsert db (lower p.u) (lower p.e) p.hpw p.now with
      | none =>
          (db, { p with phase := .done (.err 400 "Username or email already exists") })
      | some (acc, db2) =>
          let resp := RegResp.created acc.id acc.username acc.email acc.createdAt
          (db2, { p with phase := .done resp })
  | .done _ => (db, p)

/-- Interleaved execution of two registration requests against the shared
table: the schedule says which request performs its next database step. -/
def runTwo : List Bool → Db → RegProc → RegProc → Db × RegProc × RegProc
  | [], db, p1, p2 => (db, p1, p2)
  | true :: rest, db, p1, p2 =>
      let s := stepProc db p1
      runTwo rest s.1 s.2 p2
  | false :: rest, db, p1, p2 =>
      let s := stepProc db p2
      runTwo rest s.1 p1 s.2

/-- Whether a request has finished with the `201` created response. -/
def createdPhase : RegPhase → Bool
  | .done (.created _ _ _ _) => true
  | _ => false

/-- Whether a request has finished with an error response. -/
def doneErr : RegPhase → Bool
  | .done (.err _ _) => true
  | _ => false

/-- Whether a request has finished (with any response). -/
def donePhase : RegPhase → Bool
  | .done _ => true
  | _ => false

/-- Whether a request has finished with a `400` error response. -/
def rejected400 : RegPhase → Bool
  | .done (.err s _) => s == 400
  | _ => false

/-- `1` for a request that finished created, else `0`. -/
def cnt (q : RegPhase) : Nat := if createdPhase q then 1 else 0

/-- Invariant of the interleaved execution of two registrations sharing the
lowercased username `lu`, with lowercased emails `le1` and `le2`, over an
initial table `db0`: the rows beyond `db0` are exactly the successful inserts
(all carrying username `lu`, at most one), a request that finished with an
error did so because the other one's insert committed, and every error
produced is a 400. -/
def RaceInv (db0 : Db) (lu le1 le2 : String) (db : Db)
    (q1 q2 : RegProc) : Prop :=
  lower q1.u = lu ∧ lower q1.e = le1 ∧ lower q2.u = lu ∧ lower q2.e = le2 ∧
  (∃ extra, db.rows = db0.rows ++ extra ∧
    (∀ a ∈ extra, a.username = lu) ∧
    extra.length = cnt q1.phase + cnt q2.phase ∧
    extra.length ≤ 1) ∧
  (doneErr q1.phase = true → createdPhase q2.phase = true) ∧
  (doneErr q2.phase = true → createdPhase q1.phase = true) ∧
  (doneErr q1.phase = true → rejected400 q1.phase = true) ∧
  (doneErr q2.phase = true → rejected400 q2.phase = true)

/-- A concrete sound hasher used to evaluate the model on closed inputs. -/
def hasher0 : Hasher := { hash := fun p => p, verify := fun p h => p == h }

/-- A concrete stored account: `alice`, active, never logged in. -/
def acc0 : Account :=
  { id := 1, username := "alice", email := "alice@x.com", password := "secret1",
    createdAt := 0, lastLogin := none, isActive := true }

/-- A concrete one-row table holding `acc0`. -/
def db1 : Db := { rows := [acc0], nextId := 2 }

/-- The empty table. -/
def dbEmpty : Db := { rows := [], nextId := 1 }

/-- First-failure semantics over an ordered rule list: each rule pairs a
failing condition with the error it reports, and the first rule whose
condition holds alone determines the result. -/
def firstFailure : List (Bool × Nat × String) → Option (Nat × String)
  | [] => none
  | (b, st, msg) :: rest => if b then some (st, msg) else firstFailure rest

/-- Modelled from the spec: the register validation as the spec words it —
the ordered rule list presence → username length → email shape → password
length, evaluated under first-failure semantics. -/
def validateRegisterSpec (username email password : Option String) :
    Option (Nat × String) :=
  firstFailure
    [ (isFalsy username || isFalsy email || isFalsy password, 400,
        "All fields are required"),
      ((username.getD "").length < 3 || (username.getD "").length > 50, 400,
        "Username must be between 3 and 50 characters"),
      (!emailShape (email.getD ""), 400,
        "Please provide a valid email address"),
      ((password.getD "").length < 6, 400,
        "Password must be at least 6 characters long") ]

/-! ## Helper lemmas -/

theorem char_toNat_ofNat_of_le (n : Nat) (h1 : 97 ≤ n) (h2 : n ≤ 122) :
    (Char.ofNat n).toNat = n := by
  interval_cases n <;> decide

theorem char_toLower_idem (c : Char) :
    Char.toLower (Char.toLower c) = Char.toLower c := by
  by_cases h : c.toNat ≥ 65 ∧ c.toNat ≤ 90
  · have e1 : Char.toLower c = Char.ofNat (c.toNat + 32) := by
      simp only [Char.toLower]
      rw [if_pos h]
    have h1 : (Char.ofNat (c.toNat + 32)).toNat = c.toNat + 32 :=
      char_toNat_ofNat_of_le _ (by omega) (by omega)
    rw [e1]
    simp only [Char.toLower, h1]
    rw [if_neg (by omega)]
  · have e1 : Char.toLower c = c := by
      simp only [Char.toLower]
      rw [if_neg h]
    rw [e1, e1]

theorem lower_lower (s : String) : lower (lower s) = lower s := by
  show String.mk ((s.data.map Char.toLower).map Char.toLower)
      = String.mk (s.data.map Char.toLower)
  rw [List.map_map]
  exact congrArg String.mk
    (List.map_congr_left (fun c _ => char_toLower_idem c))

theorem lower_length (s : String) : (lower s).length = s.length := by
  show (s.data.map Char.toLower).length = s.data.length
  exact List.length_map s.data Char.toLower

theorem validateRegister_eq_none_iff (u e p : String) :
    validateRegister (some u) (some e) (some p) = none ↔
      u ≠ "" ∧ e ≠ "" ∧ p ≠ "" ∧ 3 ≤ u.length ∧ u.length ≤ 50 ∧
        emailShape e = true ∧ 6 ≤ p.length := by
  unfold validateRegister isFalsy
  simp only [Option.getD_some]
  split_ifs with h1 h2 h3 h4
  · simp only [Bool.or_eq_true, beq_iff_eq] at h1
    constructor
    · intro hc; cases hc
    · rintro ⟨hu, he, hp, -⟩
      rcases h1 with (h | h) | h
      · exact absurd h hu
      · exact absurd h he
      · exact absurd h hp
  · simp only [Bool.or_eq_true, decide_eq_true_eq] at h2
    constructor
    · intro hc; cases hc
    · rintro ⟨-, -, -, hl, hr, -⟩
      omega
  · simp only [Bool.not_eq_true'] at h3
    constructor
    · intro hc; cases hc
    · rintro ⟨-, -, -, -, -, hes, -⟩
      rw [hes] at h3
      cases h3
  · constructor
    · intro hc; cases hc
    · rintro ⟨-, -, -, -, -, -, hp6⟩
      omega
  · simp only [Bool.or_eq_true, beq_iff_eq, not_or] at h1
    simp only [Bool.or_eq_true, decide_eq_true_eq, not_or] at h2
    simp only [Bool.not_eq_true', Bool.not_eq_false] at h3
    refine iff_of_true rfl ⟨?_, ?_, ?_, by omega, by omega, h3, by omega⟩ <;> tauto

theorem dbInsert_success (db : Db) (u e pw : String) (now : Nat)
    (hany : (db.rows.any fun a => a.username == u || a.email == e) = false) :
    dbInsert db u e pw now =
      some (newAccount db u e pw now, insertedDb db u e pw now) := by
  unfold dbInsert
  rw [if_neg (by simp [hany])]

theorem insertedDb_normalized (db : Db) (u e pw : String) (now : Nat)
    (hnorm : DbNormalized db) (hu : lower u = u) (he : lower e = e) :
    DbNormalized (insertedDb db u e pw now) := by
  intro a ha
  simp only [insertedDb, List.mem_append, List.mem_singleton] at ha
  rcases ha with ha | rfl
  · exact hnorm a ha
  · exact ⟨hu, he⟩

theorem updateLastLogin_normalized (db : Db) (uid now : Nat)
    (hnorm : DbNormalized db) :
    DbNormalized (updateLastLogin db uid now) := by
  intro a ha
  simp only [updateLastLogin, List.mem_map] at ha
  obtain ⟨b, hb, hba⟩ := ha
  subst hba
  split_ifs <;> exact hnorm b hb

theorem register_preserves_normalized
    (H : Hasher) (db : Db) (now : Nat)
    (username email password : Option String) (sess : Option Nat)
    (hnorm : DbNormalized db) :
    DbNormalized (register H db now username email password sess).2.1 := by
  simp only [register]
  split
  · exact hnorm
  · split
    · exact hnorm
    · split
      · exact hnorm
      · next acc db2 heq =>
          unfold dbInsert at heq
          split_ifs at heq with hcnd
          simp only [Option.some.injEq, Prod.mk.injEq] at heq
          obtain ⟨-, hdb2⟩ := heq
          subst hdb2
          exact insertedDb_normalized db _ _ _ now hnorm
            (lower_lower _) (lower_lower _)

theorem login_preserves_normalized
    (H : Hasher) (db : Db) (now : Nat) (uf : Bool)
    (username password : Option String) (sess : Option Nat)
    (hnorm : DbNormalized db) :
    DbNormalized (login H db now uf username password sess).2.1 := by
  unfold login
  split
  · exact hnorm
  · split
    · exact hnorm
    · split
      · exact hnorm
      · split
        · exact hnorm
        · exact updateLastLogin_normalized db _ now hnorm

theorem register_success_iff_no_conflict
    (H : Hasher) (db : Db) (now : Nat) (u e p : String) (sess : Option Nat)
    (hval : validateRegister (some u) (some e) (some p) = none) :
    findConflict db (lower u) (lower e) = none ↔
      (register H db now (some u) (some e) (some p) sess).1 =
        .created db.nextId (lower u) (lower e) now := by
  constructor
  · intro hconf
    have hno := List.find?_eq_none.mp hconf
    have hany : (db.rows.any fun a =>
        a.username == lower u || a.email == lower e) = false := by
      rw [List.any_eq_false]
      intro a ha
      exact hno a ha
    simp only [register, hval, Option.getD_some, hconf,
      dbInsert_success db (lower u) (lower e) (H.hash p) now hany]
    rfl
  · intro hcr
    cases hc : findConflict db (lower u) (lower e) with
    | none => rfl
    | some ex =>
        simp only [register, hval, Option.getD_some, hc] at hcr
        cases hcr

theorem hasher0_sound : hasher0.Sound := fun p => beq_self_eq_true p

theorem cnt_start_eq : cnt .start = 0 := rfl

theorem cnt_checkedOk_eq : cnt .checkedOk = 0 := rfl

theorem createdPhase_of_cnt_pos (q : RegPhase) (h : 1 ≤ cnt q) :
    createdPhase q = true := by
  unfold cnt at h
  split_ifs at h with hc
  · exact hc
  · omega

theorem done_not_created_err (q : RegPhase) (hd : donePhase q = true)
    (hc : createdPhase q = false) : doneErr q = true := by
  cases q with
  | start => simp [donePhase] at hd
  | checkedOk => simp [donePhase] at hd
  | done r => cases r <;> simp_all [createdPhase, doneErr]

theorem race_conflict_mem_extra
    (db0 : Db) (lu le : String) (extra : List Account)
    (hcleanU : ∀ a ∈ db0.rows, a.username ≠ lu)
    (hcleanE : ∀ a ∈ db0.rows, a.email ≠ le)
    (a : Account) (ha : a ∈ db0.rows ++ extra)
    (hpred : (a.username == lu || a.email == le) = true) :
    a ∈ extra := by
  rcases List.mem_append.mp ha with h | h
  · simp only [Bool.or_eq_true, beq_iff_eq] at hpred
    rcases hpred with h' | h'
    · exact absurd h' (hcleanU a h)
    · exact absurd h' (hcleanE a h)
  · exact h

theorem raceInv_swap (db0 : Db) (lu le1 le2 : String) (db : Db)
    (q1 q2 : RegProc) (h : RaceInv db0 lu le1 le2 db q1 q2) :
    RaceInv db0 lu le2 le1 db q2 q1 := by
  obtain ⟨h1, h2, h3, h4, ⟨extra, he, hn, hlen, hle⟩, hd1, hd2, hr1, hr2⟩ := h
  exact ⟨h3, h4, h1, h2, ⟨extra, he, hn, by omega, hle⟩, hd2, hd1, hr2, hr1⟩

theorem raceInv_step (db0 : Db) (lu le1 le2 : String)
    (hclean : ∀ a ∈ db0.rows,
      a.username ≠ lu ∧ a.email ≠ le1 ∧ a.email ≠ le2)
    (db : Db) (q1 q2 : RegProc)
    (hinv : RaceInv db0 lu le1 le2 db q1 q2) :
    RaceInv db0 lu le1 le2 (stepProc db q1).1 (stepProc db q1).2 q2 := by
  obtain ⟨hq1u, hq1e, hq2u, hq2e, ⟨extra, hrows, hextuser, hlen, hle⟩,
    he1, he2, hr1, hr2⟩ := hinv
  unfold stepProc
  cases hph : q1.phase with
  | done r =>
      exact ⟨hq1u, hq1e, hq2u, hq2e, ⟨extra, hrows, hextuser, hlen, hle⟩,
        he1, he2, hr1, hr2⟩
  | start =>
      rw [hph] at hlen he1 he2 hr1
      cases hfc : findConflict db (lower q1.u) (lower q1.e) with
      | none =>
          refine ⟨hq1u, hq1e, hq2u, hq2e,
            ⟨extra, hrows, hextuser, ?_, hle⟩, ?_, ?_, ?_, hr2⟩
          · simpa [cnt, createdPhase] using hlen
          · intro h; simp [doneErr] at h
          · intro h; exact absurd (he2 h) (by decide)
          · intro h; simp [doneErr] at h
      | some ex =>
          have hfc' : db.rows.find? (fun a =>
              a.username == lower q1.u || a.email == lower q1.e) = some ex := hfc
          have hexmem : ex ∈ db.rows := List.mem_of_find?_eq_some hfc'
          have hexpred0 := List.find?_some hfc'
          have hexpred : (ex.username == lower q1.u ||
              ex.email == lower q1.e) = true := hexpred0
          rw [hq1u, hq1e] at hexpred
          have hexext : ex ∈ extra := race_conflict_mem_extra db0 lu le1 extra
            (fun a ha => (hclean a ha).1) (fun a ha => (hclean a ha).2.1)
            ex (hrows ▸ hexmem) hexpred
          have hcnt2 : 1 ≤ cnt q2.phase := by
            have hlen1 : 0 < extra.length :=
              List.length_pos.mpr (List.ne_nil_of_mem hexext)
            have h0 : cnt RegPhase.start = 0 := rfl
            omega
          have hc2 : createdPhase q2.phase = true :=
            createdPhase_of_cnt_pos _ hcnt2
          refine ⟨hq1u, hq1e, hq2u, hq2e,
            ⟨extra, hrows, hextuser, ?_, hle⟩,
            fun _ => hc2, ?_, fun _ => rfl, hr2⟩
          · simpa [cnt, createdPhase] using hlen
          · intro h; exact absurd (he2 h) (by decide)
  | checkedOk =>
      rw [hph] at hlen he1 he2 hr1
      cases hins : dbInsert db (lower q1.u) (lower q1.e) q1.hpw q1.now with
      | none =>
          unfold dbInsert at hins
          split_ifs at hins with hcnd
          obtain ⟨a, hamem, hapred⟩ := List.any_eq_true.mp hcnd
          have hapred' : (a.username == lower q1.u ||
              a.email == lower q1.e) = true := hapred
          rw [hq1u, hq1e] at hapred'
          have haext : a ∈ extra := race_conflict_mem_extra db0 lu le1 extra
            (fun b hb => (hclean b hb).1) (fun b hb => (hclean b hb).2.1)
            a (hrows ▸ hamem) hapred'
          have hcnt2 : 1 ≤ cnt q2.phase := by
            have hlen1 : 0 < extra.length :=
              List.length_pos.mpr (List.ne_nil_of_mem haext)
            have h0 : cnt RegPhase.checkedOk = 0 := rfl
            omega
          have hc2 : createdPhase q2.phase = true :=
            createdPhase_of_cnt_pos _ hcnt2
          refine ⟨hq1u, hq1e, hq2u, hq2e,
            ⟨extra, hrows, hextuser, ?_, hle⟩,
            fun _ => hc2, ?_, fun _ => rfl, hr2⟩
          · simpa [cnt, createdPhase] using hlen
          · intro h; exact absurd (he2 h) (by decide)
      | some pr =>
          obtain ⟨acc, db2⟩ := pr
          unfold dbInsert at hins
          split_ifs at hins with hcnd
          simp only [Option.some.injEq, Prod.mk.injEq] at hins
          obtain ⟨hacc, hdb2⟩ := hins
          subst hacc
          subst hdb2
          have hext0 : extra = [] := by
            cases extra with
            | nil => rfl
            | cons b bs =>
                exfalso
                have hbmem : b ∈ db.rows := by
                  rw [hrows]
                  exact List.mem_append.mpr (Or.inr (List.mem_cons_self b bs))
                have hbl : b.username = lu := hextuser b (List.mem_cons_self b bs)
                exact hcnd (List.any_eq_true.mpr
                  ⟨b, hbmem, by simp [hbl, hq1u]⟩)
          subst hext0
          have hrows' : db.rows = db0.rows := by simpa using hrows
          have hcnt2 : cnt q2.phase = 0 := by
            have h0 : cnt RegPhase.checkedOk = 0 := rfl
            simp only [List.length_nil] at hlen
            omega
          refine ⟨hq1u, hq1e, hq2u, hq2e,
            ⟨[newAccount db (lower q1.u) (lower q1.e) q1.hpw q1.now],
              ?_, ?_, ?_, by simp⟩,
            ?_, fun _ => rfl, ?_, hr2⟩
          · show (insertedDb db (lower q1.u) (lower q1.e) q1.hpw q1.now).rows =
              db0.rows ++ [newAccount db (lower q1.u) (lower q1.e) q1.hpw q1.now]
            simp [insertedDb, hrows']
          · intro a ha
            simp only [List.mem_singleton] at ha
            subst ha
            exact hq1u
          · rw [hcnt2]
            rfl
          · intro h; simp [doneErr] at h
          · intro h; simp [doneErr] at h

theorem raceInv_run (db0 : Db) (lu le1 le2 : String)
    (hclean : ∀ a ∈ db0.rows,
      a.username ≠ lu ∧ a.email ≠ le1 ∧ a.email ≠ le2)
    (sched : List Bool) (db : Db) (q1 q2 : RegProc)
    (hinv : RaceInv db0 lu le1 le2 db q1 q2) :
    RaceInv db0 lu le1 le2 (runTwo sched db q1 q2).1
      (runTwo sched db q1 q2).2.1 (runTwo sched db q1 q2).2.2 := by
  induction sched generalizing db q1 q2 with
  | nil => exact hinv
  | cons b rest ih =>
      cases b with
      | true =>
          exact ih (stepProc db q1).1 (stepProc db q1).2 q2
            (raceInv_step db0 lu le1 le2 hclean db q1 q2 hinv)
      | false =>
          have hclean' : ∀ a ∈ db0.rows,
              a.username ≠ lu ∧ a.email ≠ le2 ∧ a.email ≠ le1 :=
            fun a ha => ⟨(hclean a ha).1, (hclean a ha).2.2, (hclean a ha).2.1⟩
          have h1 := raceInv_step db0 lu le2 le1 hclean' db q2 q1
            (raceInv_swap db0 lu le1 le2 db q1 q2 hinv)
          exact ih (stepProc db q2).1 q1 (stepProc db q2).2
            (raceInv_swap db0 lu le2 le1 _ _ _ h1)

theorem raceInv_conclusion (db0 : Db) (lu le1 le2 : String) (db : Db)
    (q1 q2 : RegProc) (hinv : RaceInv db0 lu le1 le2 db q1 q2)
    (hd1 : donePhase q1.phase = true) (hd2 : donePhase q2.phase = true) :
    (createdPhase q1.phase = true ∧ rejected400 q2.phase = true) ∨
    (createdPhase q2.phase = true ∧ rejected400 q1.phase = true) := by
  obtain ⟨-, -, -, -, ⟨extra, -, -, hlen, hle⟩, he1, he2, hr1, hr2⟩ := hinv
  by_cases hc1 : createdPhase q1.phase = true
  · left
    refine ⟨hc1, ?_⟩
    have hc2 : createdPhase q2.phase = false := by
      by_contra hcon
      have hc2' : createdPhase q2.phase = true := by simpa using hcon
      simp only [cnt, hc1, hc2', if_true] at hlen
      omega
    exact hr2 (done_not_created_err _ hd2 hc2)
  · right
    have hc1' : createdPhase q1.phase = false := by simpa using hc1
    have herr1 : doneErr q1.phase = true := done_not_created_err _ hd1 hc1'
    exact ⟨he1 herr1, hr1 herr1⟩

/-! ## Claim theorems -/

/-- C6: register validation checks run in the fixed order presence → username
length → email shape → password length, and the first failing rule alone
determines the single reported 400 error: the handler validation equals
first-failure evaluation of the ordered rule list. -/
theorem validation_is_ordered_first_failure
    (username email password : Option String) :
    validateRegister username email password =
      validateRegisterSpec username email password := by
  simp only [validateRegister, validateRegisterSpec, firstFailure]
  split_ifs <;> (simp_all; try omega)

/-- C2: a login for a username matching no active account and a login for an
existing active username with a wrong password both produce the same 401
status with the byte-for-byte identical error payload, revealing nothing
about whether the username exists. -/
theorem login_enumeration_resistant
    (H : Hasher) (db : Db) (now1 now2 : Nat) (uf1 uf2 : Bool)
    (uA pA uB pB : String) (sessA sessB : Option Nat) (acc : Account)
    (huA : uA ≠ "") (hpA : pA ≠ "") (huB : uB ≠ "") (hpB : pB ≠ "")
    (hA : findActiveByUsername db uA = none)
    (hB : findActiveByUsername db uB = some acc)
    (hpw : H.verify pB acc.password = false) :
    (login H db now1 uf1 (some uA) (some pA) sessA).1 =
        .err 401 "Invalid username or password" ∧
    (login H db now2 uf2 (some uB) (some pB) sessB).1 =
        .err 401 "Invalid username or password" := by
  constructor
  · simp [login, isFalsy, huA, hpA, hA]
  · simp [login, isFalsy, huB, hpB, hB, hpw]

/-- Witness for C2 at a concrete table: unknown username `bob` and known
username `alice` with wrong password both yield the same 401 payload. -/
theorem login_enumeration_resistant_witness :
    (login hasher0 db1 5 false (some "bob") (some "pw1234") none).1 =
        LoginResp.err 401 "Invalid username or password" ∧
    (login hasher0 db1 5 false (some "alice") (some "wrongpw") none).1 =
        LoginResp.err 401 "Invalid username or password" :=
  login_enumeration_resistant hasher0 db1 5 5 false false
    "bob" "pw1234" "alice" "wrongpw" none none acc0
    (by decide) (by decide) (by decide) (by decide) (by decide) (by decide)
    (by decide)

/-- C8: a login whose username or password is missing or empty is rejected
with the 400 missing-fields error before any database statement runs: the
statement log of such a call is empty. -/
theorem login_missing_fields_no_store_access
    (H : Hasher) (db : Db) (now : Nat) (uf : Bool)
    (username password : Option String) (sess : Option Nat)
    (h : (isFalsy username || isFalsy password) = true) :
    login H db now uf username password sess =
      (.err 400 "Username and password are required", db, sess, []) := by
  unfold login
  rw [if_pos h]

/-- Witness for C8: a login with an empty password is rejected with 400 and
an empty statement log. -/
theorem login_missing_fields_no_store_access_witness :
    login hasher0 db1 5 false (some "alice") (some "") none =
      (LoginResp.err 400 "Username and password are required", db1, none, []) :=
  login_missing_fields_no_store_access hasher0 db1 5 false
    (some "alice") (some "") none (by decide)

/-- C3 counterexample: with the stored account `alice`/`secret1` and the
correct password, a failing last-login update makes the login return the 500
server-error response with no session — the update error is not swallowed,
contradicting the claim that the login still succeeds. -/
theorem login_update_failure_not_swallowed_cex :
    (login hasher0 db1 5 true (some "alice") (some "secret1") none).1 =
        LoginResp.err 500 "Login failed due to server error" ∧
    ((login hasher0 db1 5 true (some "alice") (some "secret1") none).1).isOk
        = false ∧
    (login hasher0 db1 5 true (some "alice") (some "secret1") none).2.2.1
        = none := by
  exact ⟨rfl, rfl, rfl⟩

/-- C3 amended: after a successful password verification, a failure of the
last-login update makes the login fail with the generic 500 server-error
response; no session is established and the table is unchanged (the update
runs inside the handler's single try block, so its error reaches the catch). -/
theorem login_update_failure_yields_500
    (H : Hasher) (db : Db) (now : Nat) (u p : String) (sess : Option Nat)
    (acc : Account)
    (hu : u ≠ "") (hp : p ≠ "")
    (hfind : findActiveByUsername db u = some acc)
    (hv : H.verify p acc.password = true) :
    login H db now true (some u) (some p) sess =
      (.err 500 "Login failed due to server error", db, sess,
       ["selectUser", "updateLastLogin"]) := by
  simp [login, isFalsy, hu, hp, hfind, hv]

/-- Witness for the amended C3 at the concrete table. -/
theorem login_update_failure_yields_500_witness :
    login hasher0 db1 5 true (some "alice") (some "secret1") none =
      (LoginResp.err 500 "Login failed due to server error", db1, none,
       ["selectUser", "updateLastLogin"]) :=
  login_update_failure_yields_500 hasher0 db1 5 "alice" "secret1" none acc0
    (by decide) (by decide) (by decide) (by decide)

/-- C10: a successful login reports as `lastLogin` the value read by the
lookup before this login (possibly null for a first login), while the stored
row is updated to the current timestamp — the response never carries the
timestamp written by this login's own update. -/
theorem login_success_returns_previous_lastLogin
    (H : Hasher) (db : Db) (now : Nat) (u p : String) (sess : Option Nat)
    (acc : Account)
    (hu : u ≠ "") (hp : p ≠ "")
    (hfind : findActiveByUsername db u = some acc)
    (hv : H.verify p acc.password = true) :
    (login H db now false (some u) (some p) sess).1 =
        .ok acc.id acc.username acc.email acc.lastLogin ∧
    ∀ a ∈ (login H db now false (some u) (some p) sess).2.1.rows,
      a.id = acc.id → a.lastLogin = some now := by
  have hl : login H db now false (some u) (some p) sess =
      (.ok acc.id acc.username acc.email acc.lastLogin,
       updateLastLogin db acc.id now, some acc.id,
       ["selectUser", "updateLastLogin"]) := by
    simp [login, isFalsy, hu, hp, hfind, hv]
  rw [hl]
  refine ⟨rfl, ?_⟩
  intro a ha haid
  simp only [updateLastLogin, List.mem_map] at ha
  obtain ⟨b, hb, hba⟩ := ha
  subst hba
  by_cases hbid : b.id = acc.id
  · simp [hbid]
  · have hne : (b.id == acc.id) = false := by simp [hbid]
    simp only [hne] at haid ⊢
    simp only [if_neg Bool.false_ne_true] at haid
    exact absurd haid hbid

/-- Witness for C10: the first login of `alice` reports a null `lastLogin`
while the stored row is updated to the login timestamp. -/
theorem login_success_returns_previous_lastLogin_witness :
    (login hasher0 db1 5 false (some "alice") (some "secret1") none).1 =
        LoginResp.ok 1 "alice" "alice@x.com" none ∧
    ∀ a ∈ (login hasher0 db1 5 false (some "alice") (some "secret1") none).2.1.rows,
      a.id = 1 → a.lastLogin = some 5 :=
  login_success_returns_previous_lastLogin hasher0 db1 5 "alice" "secret1"
    none acc0 (by decide) (by decide) (by decide) (by decide)

/-- C1: for a valid registration input whose lowercased username and email
conflict with no stored account, register followed by login with any case
variant of the username and the same password succeeds, and the login
response and session carry exactly the account id the registration created. -/
theorem register_then_login_roundtrip
    (H : Hasher) (hH : H.Sound) (db : Db) (now now2 : Nat)
    (u e p u2 : String) (sess sess2 : Option Nat)
    (hnorm : DbNormalized db)
    (hval : validateRegister (some u) (some e) (some p) = none)
    (hconf : findConflict db (lower u) (lower e) = none)
    (hu2 : lower u2 = lower u) :
    ∃ (acc : Account) (db2 : Db),
      register H db now (some u) (some e) (some p) sess =
        (.created acc.id acc.username acc.email acc.createdAt, db2,
         some acc.id) ∧
      acc.username = lower u ∧ acc.email = lower e ∧ acc.lastLogin = none ∧
      (login H db2 now2 false (some u2) (some p) sess2).1 =
        .ok acc.id acc.username acc.email none ∧
      (login H db2 now2 false (some u2) (some p) sess2).2.2.1 =
        some acc.id := by
  obtain ⟨hune, hene, hpne, hul3, hul50, hes, hpl6⟩ :=
    (validateRegister_eq_none_iff u e p).mp hval
  have hno := List.find?_eq_none.mp hconf
  have hany : (db.rows.any fun a =>
      a.username == lower u || a.email == lower e) = false := by
    rw [List.any_eq_false]
    intro a ha
    exact hno a ha
  have hlen2 : u2.length = u.length := by
    rw [← lower_length u2, hu2, lower_length]
  have hu2ne : u2 ≠ "" := by
    intro hh
    rw [hh] at hlen2
    have h0 : ("" : String).length = 0 := rfl
    omega
  have hfind : findActiveByUsername
      (insertedDb db (lower u) (lower e) (H.hash p) now) u2 =
      some (newAccount db (lower u) (lower e) (H.hash p) now) := by
    unfold findActiveByUsername insertedDb
    rw [List.find?_append]
    have h1 : db.rows.find?
        (fun a => lower a.username == lower u2 && a.isActive) = none := by
      rw [List.find?_eq_none]
      intro a ha
      have hnu := (hnorm a ha).1
      have hfa := hno a ha
      simp only [Bool.or_eq_true, beq_iff_eq, not_or] at hfa
      intro hcontra
      simp only [Bool.and_eq_true, beq_iff_eq] at hcontra
      have : a.username = lower u := by
        rw [← hnu, hcontra.1, hu2]
      exact hfa.1 this
    rw [h1]
    simp [newAccount, lower_lower, hu2]
  have hlog : login H (insertedDb db (lower u) (lower e) (H.hash p) now) now2
      false (some u2) (some p) sess2 =
      (.ok (newAccount db (lower u) (lower e) (H.hash p) now).id
          (newAccount db (lower u) (lower e) (H.hash p) now).username
          (newAccount db (lower u) (lower e) (H.hash p) now).email none,
       updateLastLogin (insertedDb db (lower u) (lower e) (H.hash p) now)
         (newAccount db (lower u) (lower e) (H.hash p) now).id now2,
       some (newAccount db (lower u) (lower e) (H.hash p) now).id,
       ["selectUser", "updateLastLogin"]) := by
    simp [login, isFalsy, hu2ne, hpne, hfind, hH p, newAccount]
  refine ⟨newAccount db (lower u) (lower e) (H.hash p) now,
          insertedDb db (lower u) (lower e) (H.hash p) now,
          ?_, rfl, rfl, rfl, ?_, ?_⟩
  · simp only [register, hval, Option.getD_some, hconf,
      dbInsert_success db (lower u) (lower e) (H.hash p) now hany]
  · rw [hlog]
  · rw [hlog]

/-- Witness for C1: registering `Alice`/`Alice@X.com`/`secret1` on the empty
table then logging in as `ALICE` with `secret1` succeeds with the same id. -/
theorem register_then_login_roundtrip_witness :
    ∃ (acc : Account) (db2 : Db),
      register hasher0 dbEmpty 3 (some "Alice") (some "Alice@X.com")
          (some "secret1") none =
        (.created acc.id acc.username acc.email acc.createdAt, db2,
         some acc.id) ∧
      acc.username = lower "Alice" ∧ acc.email = lower "Alice@X.com" ∧
      acc.lastLogin = none ∧
      (login hasher0 db2 9 false (some "ALICE") (some "secret1") none).1 =
        .ok acc.id acc.username acc.email none ∧
      (login hasher0 db2 9 false (some "ALICE") (some "secret1") none).2.2.1 =
        some acc.id :=
  register_then_login_roundtrip hasher0 hasher0_sound dbEmpty 3 9
    "Alice" "Alice@X.com" "secret1" "ALICE" none none
    (by unfold DbNormalized; decide) (by decide) (by decide) (by decide)

/-- C9: the register handler lowercases username and email before lookup and
storage: the all-lowercase invariant on the stored rows is preserved by
register and by login, and for a valid registration input, success is decided
exactly by the duplicate check on the lowercased forms, the created account
carrying the lowercased username and email. -/
theorem register_lowercase_normalization
    (H : Hasher) (db : Db) (now : Nat) (hnorm : DbNormalized db) :
    (∀ username email password sess,
      DbNormalized (register H db now username email password sess).2.1) ∧
    (∀ uf username password sess,
      DbNormalized (login H db now uf username password sess).2.1) ∧
    (∀ u e p sess, validateRegister (some u) (some e) (some p) = none →
      (findConflict db (lower u) (lower e) = none ↔
        (register H db now (some u) (some e) (some p) sess).1 =
          .created db.nextId (lower u) (lower e) now)) :=
  ⟨fun username email password sess =>
    register_preserves_normalized H db now username email password sess hnorm,
   fun uf username password sess =>
    login_preserves_normalized H db now uf username password sess hnorm,
   fun u e p sess hval =>
    register_success_iff_no_conflict H db now u e p sess hval⟩

/-- Witness for C9: registering `Bob`/`Bob@X.com` against the table holding
only `alice` succeeds and stores the lowercased identity fields. -/
theorem register_lowercase_normalization_witness :
    (register hasher0 db1 7 (some "Bob") (some "Bob@X.com") (some "pass123")
        none).1 = RegResp.created 2 "bob" "bob@x.com" 7 :=
  ((register_lowercase_normalization hasher0 db1 7
      (by unfold DbNormalized; decide)).2.2
    "Bob" "Bob@X.com" "pass123" none (by decide)).mp (by decide)

/-- C4: username/email uniqueness is enforced by the store's atomic insert
(the `UNIQUE` columns), not by the handler's prior read-check: under every
interleaving of the database steps of two registrations whose usernames agree
after lowercasing, against a table free of both identities, if both requests
finish then exactly one finishes created and the other is rejected with a
400 error. -/
theorem concurrent_duplicate_register_exactly_one
    (db0 : Db) (u1 e1 hp1 u2 e2 hp2 : String) (n1 n2 : Nat)
    (sched : List Bool)
    (hu : lower u1 = lower u2)
    (hclean : ∀ a ∈ db0.rows, a.username ≠ lower u1 ∧
      a.email ≠ lower e1 ∧ a.email ≠ lower e2)
    (hdone1 : donePhase (runTwo sched db0
      ⟨u1, e1, hp1, n1, .start⟩ ⟨u2, e2, hp2, n2, .start⟩).2.1.phase = true)
    (hdone2 : donePhase (runTwo sched db0
      ⟨u1, e1, hp1, n1, .start⟩ ⟨u2, e2, hp2, n2, .start⟩).2.2.phase = true) :
    (createdPhase (runTwo sched db0 ⟨u1, e1, hp1, n1, .start⟩
        ⟨u2, e2, hp2, n2, .start⟩).2.1.phase = true ∧
     rejected400 (runTwo sched db0 ⟨u1, e1, hp1, n1, .start⟩
        ⟨u2, e2, hp2, n2, .start⟩).2.2.phase = true) ∨
    (createdPhase (runTwo sched db0 ⟨u1, e1, hp1, n1, .start⟩
        ⟨u2, e2, hp2, n2, .start⟩).2.2.phase = true ∧
     rejected400 (runTwo sched db0 ⟨u1, e1, hp1, n1, .start⟩
        ⟨u2, e2, hp2, n2, .start⟩).2.1.phase = true) := by
  have hinv0 : RaceInv db0 (lower u1) (lower e1) (lower e2) db0
      ⟨u1, e1, hp1, n1, .start⟩ ⟨u2, e2, hp2, n2, .start⟩ := by
    refine ⟨rfl, rfl, hu.symm, rfl, ⟨[], by simp, by simp, rfl, by simp⟩,
      ?_, ?_, ?_, ?_⟩ <;> intro h <;> simp [doneErr] at h
  exact raceInv_conclusion db0 (lower u1) (lower e1) (lower e2) _ _ _
    (raceInv_run db0 (lower u1) (lower e1) (lower e2) hclean sched db0 _ _
      hinv0)
    hdone1 hdone2

/-- Witness for C4: the schedule that runs the first registration of `alice`
to completion and then the second (`Alice`) yields exactly one created and
one 400-rejected request. -/
theorem concurrent_duplicate_register_exactly_one_witness :
    (createdPhase (runTwo [true, true, false, false] dbEmpty
        ⟨"alice", "a@x.com", "h1", 3, .start⟩
        ⟨"Alice", "b@x.com", "h2", 4, .start⟩).2.1.phase = true ∧
     rejected400 (runTwo [true, true, false, false] dbEmpty
        ⟨"alice", "a@x.com", "h1", 3, .start⟩
        ⟨"Alice", "b@x.com", "h2", 4, .start⟩).2.2.phase = true) ∨
    (createdPhase (runTwo [true, true, false, false] dbEmpty
        ⟨"alice", "a@x.com", "h1", 3, .start⟩
        ⟨"Alice", "b@x.com", "h2", 4, .start⟩).2.2.phase = true ∧
     rejected400 (runTwo [true, true, false, false] dbEmpty
        ⟨"alice", "a@x.com", "h1", 3, .start⟩
        ⟨"Alice", "b@x.com", "h2", 4, .start⟩).2.1.phase = true) :=
  concurrent_duplicate_register_exactly_one dbEmpty
    "alice" "a@x.com" "h1" "Alice" "b@x.com" "h2" 3 4
    [true, true, false, false] (by decide) (by decide) (by decide) (by decide)

/-- C5 counterexample: in the interleaving where both registrations pass
their duplicate checks before either insert, the losing request is rejected
through the unique-violation handler with the generic message
`Username or email already exists`, which is neither of the field-naming
messages the claim requires. -/
theorem race_loser_generic_message_cex :
    (runTwo [true, false, true, false] dbEmpty
        ⟨"alice", "a@x.com", "h1", 3, .start⟩
        ⟨"Alice", "b@x.com", "h2", 4, .start⟩).2.2.phase =
      .done (.err 400 "Username or email already exists") ∧
    "Username or email already exists" ≠
      "This username is already registered" ∧
    "Username or email already exists" ≠
      "This email is already registered" :=
  ⟨rfl, by decide, by decide⟩

/-- C5 amended: a register whose duplicate is visible to the read-check gets
a 400 error naming the specific conflicting field, while a register that
loses the race after its check passed is rejected by the unique-constraint
handler with the generic 400 message `Username or email already exists`. -/
theorem register_conflict_error_messages
    (H : Hasher) (db : Db) (now : Nat) (u e p : String) (sess : Option Nat)
    (ex : Account)
    (hval : validateRegister (some u) (some e) (some p) = none)
    (hfound : findConflict db (lower u) (lower e) = some ex) :
    ((register H db now (some u) (some e) (some p) sess).1 =
      .err 400 ("This " ++ conflictField ex u ++ " is already registered") ∧
     (lower ex.username = lower u → conflictField ex u = "username") ∧
     (lower ex.username ≠ lower u → conflictField ex u = "email")) ∧
    (∀ (dbX : Db) (q : RegProc), q.phase = .checkedOk →
      dbInsert dbX (lower q.u) (lower q.e) q.hpw q.now = none →
      (stepProc dbX q).2.phase =
        .done (.err 400 "Username or email already exists")) := by
  constructor
  · refine ⟨?_, ?_, ?_⟩
    · simp only [register, hval, Option.getD_some, hfound]
    · intro h
      unfold conflictField
      rw [if_pos (by simp [h])]
    · intro h
      unfold conflictField
      rw [if_neg (by simp [h])]
  · intro dbX q hq hins
    unfold stepProc
    rw [hq, hins]

/-- Witness for the amended C5: registering `ALICE` against the table holding
`alice` yields the field-naming message, and a checked process whose insert
hits the unique constraint yields the generic message. -/
theorem register_conflict_error_messages_witness :
    (register hasher0 db1 7 (some "ALICE") (some "new@x.com")
        (some "pass123") none).1 =
      RegResp.err 400 ("This " ++ conflictField acc0 "ALICE" ++
        " is already registered") ∧
    conflictField acc0 "ALICE" = "username" :=
  ⟨((register_conflict_error_messages hasher0 db1 7 "ALICE" "new@x.com"
      "pass123" none acc0 (by decide) (by decide)).1).1,
   ((register_conflict_error_messages hasher0 db1 7 "ALICE" "new@x.com"
      "pass123" none acc0 (by decide) (by decide)).1).2.1 (by decide)⟩

/-- C7: the profile endpoint returns 401 without an authenticated session,
404 when the session's account id matches no active account, and on success
the account together with a total count over all rows, active and inactive. -/
theorem getProfile_spec (db : Db) (uid : Nat) :
    getProfile db none = .err 401 "Authentication required" ∧
    (0 < uid → db.rows.find? (fun a => a.id == uid && a.isActive) = none →
      getProfile db (some uid) = .err 404 "User account not found") ∧
    (∀ acc, 0 < uid →
      db.rows.find? (fun a => a.id == uid && a.isActive) = some acc →
      getProfile db (some uid) =
        .ok acc.id acc.username acc.email acc.createdAt acc.lastLogin
          db.rows.length) := by
  refine ⟨rfl, ?_, ?_⟩
  · intro hpos hnone
    have h0 : uid ≠ 0 := Nat.pos_iff_ne_zero.mp hpos
    simp [getProfile, isFalsyId, h0, hnone]
  · intro acc hpos hsome
    have h0 : uid ≠ 0 := Nat.pos_iff_ne_zero.mp hpos
    simp [getProfile, isFalsyId, h0, hsome]

/-- Witness for C7: the profile of the stored account `alice` (the only row)
is returned with a total count of 1, and an unknown id yields 404. -/
theorem getProfile_spec_witness :
    getProfile db1 (some 1) =
        ProfileResp.ok 1 "alice" "alice@x.com" 0 none 1 ∧
    getProfile db1 (some 2) = ProfileResp.err 404 "User account not found" :=
  ⟨(getProfile_spec db1 1).2.2 acc0 (by decide) (by decide),
   (getProfile_spec db1 2).2.1 (by decide) (by decide)⟩

end LoginSys
